import Mathlib

/-!
Formalisation of the validation-and-extraction pipeline of
`src/pptx_converter_app.py`.

The pipeline has two pure cores:

* `validate_file_basic` — five independent checks on an uploaded blob
  (size ceiling, extension allow-list, zip structural check, filename
  character sanitisation, minimum size floor), returning a list of
  rejection reasons.
* `safe_text_extraction` — a bounded walk over the parsed presentation
  (slides containing shapes), with a hard cap of 200 slides, 100 shapes
  per slide and 50000 characters per shape text, plus sanitisation of
  error messages on the exception path.

External effects are embedded as data: the outcome of opening the blob's
bytes as a zip archive is a `ZipOutcome` field of the blob, and the outcome
of parsing the presentation is an `OpenOutcome` (either the document tree
or the exception's message string).  Python's character predicates
`str.isprintable`/`str.isspace` are modelled exactly on ASCII and the
C1 control block; the theorems below do not depend on the exact predicate.
-/

namespace Pptx

/-! ## Python string primitives used by the source -/

/-- Whitespace predicate of Python's `str.isspace`, exact on ASCII. -/
def pyIsSpace (c : Char) : Bool :=
  c == ' ' || c == '\t' || c == '\n' || c == '\r' || c == '\x0b' || c == '\x0c'

/-- Printability predicate of Python's `str.isprintable`: false on the C0
control block, DEL and the C1 control block, true otherwise (exact on
ASCII; wider Unicode categories are approximated). -/
def pyIsPrintable (c : Char) : Bool :=
  let n := c.toNat
  if n < 0x20 then false
  else if n == 0x7F then false
  else if 0x80 ≤ n ∧ n ≤ 0x9F then false
  else true

/-- Python slicing `s[:n]`: the first `n` characters. -/
def pyTake (s : String) (n : Nat) : String :=
  String.mk (s.data.take n)

/-- Python slicing `s[-n:]`: the last `n` characters (the whole string when
it is shorter than `n`). -/
def pyTakeRight (s : String) (n : Nat) : String :=
  String.mk (s.data.drop (s.data.length - n))

/-- Python `s.strip()`: drop leading and trailing whitespace. -/
def pyStrip (s : String) : String :=
  String.mk (((s.data.dropWhile pyIsSpace).reverse.dropWhile pyIsSpace).reverse)

/-- Python `s.lower()`, character-wise. -/
def pyLower (s : String) : String :=
  String.mk (s.data.map Char.toLower)

/-- Whether `needle` is an initial segment of `hay`. -/
def leadMatch : List Char → List Char → Bool
  | [], _ => true
  | _ :: _, [] => false
  | a :: as, b :: bs => a == b && leadMatch as bs

/-- Whether `needle` occurs contiguously inside `hay`. -/
def occursIn (needle : List Char) : List Char → Bool
  | [] => needle.isEmpty
  | b :: bs => leadMatch needle (b :: bs) || occursIn needle bs

/-- Python's `needle in hay` for strings: contiguous substring test. -/
def strContains (hay needle : String) : Bool :=
  occursIn needle.data hay.data

/-- Index of the last occurrence of `c`, when there is one. -/
def lastIdxOf (c : Char) : List Char → Option Nat
  | [] => none
  | a :: rest =>
    match lastIdxOf c rest with
    | some i => some (i + 1)
    | none => if a == c then some 0 else none

/-- Extension part of `os.path.splitext(p)[1]` (posix separator): the part
from the last dot on, provided that dot lies after the last `/` and some
character of the basename before it is not a dot. -/
def splitextExt (p : String) : String :=
  let cs := p.data
  let sepIdx : Int := match lastIdxOf '/' cs with | some i => (i : Int) | none => -1
  let dotIdx : Int := match lastIdxOf '.' cs with | some i => (i : Int) | none => -1
  if sepIdx < dotIdx then
    let start := (sepIdx + 1).toNat
    let dotN := dotIdx.toNat
    if ((cs.drop start).take (dotN - start)).any (fun ch => ch != '.') then
      String.mk (cs.drop dotN)
    else ""
  else ""

/-! ## Validator (`validate_file_basic`, source lines 41-81) -/

/-- Security configuration constant: 50 MiB size ceiling. -/
def MAX_FILE_SIZE : Nat := 50 * 1024 * 1024

/-- Security configuration constant: extension allow-list. -/
def ALLOWED_EXTENSIONS : List String := [".pptx"]

/-- Outcome of `zipfile.ZipFile(BytesIO(bytes))` on the blob's bytes:
the archive opens and lists these entry names, raises `BadZipFile`, or
raises some other exception. -/
inductive ZipOutcome
  | ok (names : List String)
  | badZip
  | otherError
deriving DecidableEq

/-- An uploaded blob: declared name, declared byte size, and the outcome of
opening its bytes as a zip archive (the bytes themselves are opaque to the
validator beyond this outcome). -/
structure UploadedBlob where
  name : String
  size : Nat
  zip : ZipOutcome

/-- Reason string of check 1 (size ceiling). -/
def sizeReason : String :=
  "File too large. Maximum size: " ++ toString (MAX_FILE_SIZE / (1024 * 1024)) ++ "MB"

/-- Reason string of check 2 (extension allow-list). -/
def extReason : String := "Invalid file type. Only .pptx files allowed"

/-- Reason string of check 3 when a required entry is missing. -/
def formatReason : String := "File doesn't appear to be a valid PPTX format"

/-- Reason string of check 3 on `BadZipFile`. -/
def corruptReason : String := "File is corrupted or not a valid PPTX file"

/-- Reason string of check 3 on any other exception. -/
def structFailReason : String := "Unable to validate file structure"

/-- Reason string of check 4 (filename characters). -/
def charReason : String := "Invalid characters in filename"

/-- Reason string of check 5 (minimum size floor). -/
def tooSmallReason : String := "File is too small to be a valid PPTX"

/-- Entry names every valid package must contain (source line 59). -/
def requiredFiles : List String := ["[Content_Types].xml", "ppt/presentation.xml"]

/-- Check 3: the structural try/except block.  The source loop appends the
format reason once and breaks on the first missing required entry. -/
def structuralCheck : ZipOutcome → List String
  | ZipOutcome.ok names =>
    if requiredFiles.all (fun f => names.contains f) then [] else [formatReason]
  | ZipOutcome.badZip => [corruptReason]
  | ZipOutcome.otherError => [structFailReason]

/-- Substrings the declared filename must not contain (source line 73). -/
def dangerous_chars : List String :=
  ["/", "\\", "..", "<", ">", "|", ":", "*", "?", "\""]

/-- Check 4: `any(char in uploaded_file.name for char in dangerous_chars)`. -/
def hasDangerousChar (name : String) : Bool :=
  dangerous_chars.any (fun d => strContains name d)

/-- The validator: all five checks run unconditionally, their reasons
concatenated in source order. -/
def validate_file_basic (b : UploadedBlob) : List String :=
  (if MAX_FILE_SIZE < b.size then [sizeReason] else []) ++
  (if pyLower (splitextExt b.name) ∈ ALLOWED_EXTENSIONS then [] else [extReason]) ++
  structuralCheck b.zip ++
  (if hasDangerousChar b.name then [charReason] else []) ++
  (if b.size < 1000 then [tooSmallReason] else [])

/-! ## Extractor (`safe_text_extraction`, source lines 83-142) -/

/-- Resource-exhaustion limit: slides processed per document. -/
def MAX_SLIDES : Nat := 200

/-- Resource-exhaustion limit: characters taken per shape text. -/
def MAX_TEXT_PER_SLIDE : Nat := 50000

/-- Resource-exhaustion limit: shapes processed per slide. -/
def MAX_SHAPES_PER_SLIDE : Nat := 100

/-- One shape of a slide; `text` is `some` exactly when the object has a
`text` attribute (source line 117's `hasattr` probe). -/
structure Shape where
  text : Option String

/-- One slide: its ordered shapes. -/
structure Slide where
  shapes : List Shape

/-- Marker appended inside a slide's text when the shape cap is hit. -/
def shapeMarker : String := "⚠️ Too many shapes in slide, some content skipped\n"

/-- Marker appended as a final list entry when the slide cap is hit. -/
def slideCapMarker : String :=
  "\n⚠️ Processing stopped at " ++ toString MAX_SLIDES ++ " slides for performance\n"

/-- Character filter of source lines 121-122: keep printable or whitespace
characters, drop the rest. -/
def keepChar (c : Char) : Bool :=
  pyIsPrintable c || pyIsSpace c

/-- Sanitisation of one shape's text content (source lines 121-122). -/
def sanitizeText (s : String) : String :=
  String.mk (s.data.filter keepChar)

/-- Body of the shape loop for one shape (source lines 117-123): when the
shape carries text that is non-empty after stripping, append the truncated,
sanitised text plus a newline to the slide's accumulated text. -/
def appendShape (acc : String) (s : Shape) : String :=
  match s.text with
  | some t =>
    if pyStrip t = "" then acc
    else acc ++ sanitizeText (pyTake t MAX_TEXT_PER_SLIDE) ++ "\n"
  | none => acc

/-- The shape loop (source lines 109-123): `shape_count` is incremented
first; once it exceeds `MAX_SHAPES_PER_SLIDE` the marker is appended and
the loop breaks. -/
def processShapes : List Shape → Nat → String → String
  | [], _, acc => acc
  | s :: rest, shape_count, acc =>
    if MAX_SHAPES_PER_SLIDE < shape_count + 1 then acc ++ shapeMarker
    else processShapes rest (shape_count + 1) (appendShape acc s)

/-- Header line of slide number `n` (source line 108). -/
def slideHeader (n : Nat) : String :=
  "\n--- Slide " ++ toString n ++ " ---\n"

/-- Full accumulated text of one slide numbered `n`. -/
def slideTextOf (n : Nat) (s : Slide) : String :=
  processShapes s.shapes 0 (slideHeader n)

/-- Texts of a list of slides processed without hitting the slide cap, when
`slide_count` slides were already processed before them. -/
def slideTexts : List Slide → Nat → List String
  | [], _ => []
  | s :: rest, slide_count =>
    slideTextOf (slide_count + 1) s :: slideTexts rest (slide_count + 1)

/-- The slide loop (source lines 102-125): `i` is the 0-based enumeration
index; reaching `MAX_SLIDES` appends the cap marker and breaks, returning
the accumulated text list and the count of slides actually processed. -/
def processSlides : List Slide → Nat → Nat → List String → List String × Nat
  | [], _, slide_count, acc => (acc, slide_count)
  | s :: rest, i, slide_count, acc =>
    if MAX_SLIDES ≤ i then (acc ++ [slideCapMarker], slide_count)
    else processSlides rest (i + 1) (slide_count + 1)
      (acc ++ [slideTextOf (slide_count + 1) s])

/-- Python `"\n".join(l)` (source line 127). -/
def joinLines : List String → String
  | [] => ""
  | [x] => x
  | x :: y :: rest => x ++ "\n" ++ joinLines (y :: rest)

/-- Outcome of `Presentation(temp_file_path)` together with the walk: either
the parsed document tree, or an exception carrying `str(e)`.  Every
exception raised anywhere inside the `try` block lands in `exn`. -/
inductive OpenOutcome
  | ok (slides : List Slide)
  | exn (msg : String)

/-- Generic message replacing a leaky error message (source line 133). -/
def genericSecurityMsg : String :=
  "Error: File processing failed due to security restrictions"

/-- Leak test of source line 132: the message contains `temp` after
lowercasing, or a `/`, or a `\`. -/
def leakyMessage (msg : String) : Bool :=
  strContains (pyLower msg) "temp" || strContains msg "/" || strContains msg "\\"

/-- Error sanitisation of source lines 130-134. -/
def sanitize_error (msg : String) : String :=
  if leakyMessage msg then genericSecurityMsg
  else "Error: " ++ pyTake msg 100

/-- The extractor (source lines 83-142): on a parsed document, walk the
slides bounded by the caps and return the joined text, the slide count and
no error; on an exception, return empty text, count 0 and the sanitised
message. -/
def safe_text_extraction : OpenOutcome → String × Nat × Option String
  | OpenOutcome.ok slides =>
    let r := processSlides slides 0 0 []
    (joinLines r.1, r.2, none)
  | OpenOutcome.exn msg => ("", 0, some (sanitize_error msg))

/-! ## Summary attachment (UI, source lines 244-254) -/

/-- Truncation notice joining the two summary halves (source line 247). -/
def summaryNotice : String := "\n\n[... content truncated for summary ...]\n\n"

/-- The summary download: offered only when the extracted text has more
than 1000 characters, and then holds the first 500 and last 300 characters
joined by the truncation notice (source lines 246-247). -/
def summary_attachment (extracted_text : String) : Option String :=
  if 1000 < extracted_text.length then
    some (pyTake extracted_text 500 ++ summaryNotice ++ pyTakeRight extracted_text 300)
  else none

/-! ## Spec-side definitions (for refinement-style claims) -/

/-- Modelled from the spec: a message "containing path separators or the
substring \"temp\"" case-insensitively (section 4.2 step 2 of the spec). -/
def specLeakyMessage (msg : String) : Bool :=
  strContains msg "/" || strContains msg "\\" ||
    strContains (pyLower msg) (pyLower "temp")

/-! ## Helper lemmas -/

/-- Appending strings appends their character lists. -/
lemma data_append (a b : String) : (a ++ b).data = a.data ++ b.data := rfl

/-- Membership in a conditional singleton block of the validator. -/
lemma mem_if_singleton {c : Prop} [Decidable c] {r x : String} :
    (x ∈ if c then [r] else []) ↔ c ∧ x = r := by
  split <;> simp_all

/-- Membership in a negated conditional singleton block of the validator. -/
lemma mem_if_singleton_neg {c : Prop} [Decidable c] {r x : String} :
    (x ∈ if c then [] else [r]) ↔ ¬c ∧ x = r := by
  split <;> simp_all

/-- A shape only ever extends the accumulated slide text. -/
lemma appendShape_data (acc : String) (s : Shape) :
    ∃ t, (appendShape acc s).data = acc.data ++ t := by
  unfold appendShape
  match s.text with
  | none => exact ⟨[], by simp⟩
  | some u =>
    by_cases h : pyStrip u = ""
    · exact ⟨[], by simp [h]⟩
    · refine ⟨(sanitizeText (pyTake u MAX_TEXT_PER_SLIDE)).data ++ "\n".data, ?_⟩
      simp [h, data_append, List.append_assoc]

/-- The shape loop only ever extends the accumulated slide text. -/
lemma processShapes_data (shapes : List Shape) (n : Nat) (acc : String) :
    ∃ t, (processShapes shapes n acc).data = acc.data ++ t := by
  induction shapes generalizing n acc with
  | nil => exact ⟨[], by simp [processShapes]⟩
  | cons s rest ih =>
    rw [processShapes]
    split
    · exact ⟨shapeMarker.data, rfl⟩
    · obtain ⟨u, hu⟩ := appendShape_data acc s
      obtain ⟨t, ht⟩ := ih (n + 1) (appendShape acc s)
      exact ⟨u ++ t, by rw [ht, hu, List.append_assoc]⟩

/-- Below the cap, the shape loop is a plain fold over the shapes. -/
lemma processShapes_no_cap (shapes : List Shape) (n : Nat) (acc : String)
    (h : n + shapes.length ≤ MAX_SHAPES_PER_SLIDE) :
    processShapes shapes n acc = shapes.foldl appendShape acc := by
  induction shapes generalizing n acc with
  | nil => rfl
  | cons s rest ih =>
    rw [processShapes, List.foldl_cons]
    rw [if_neg (by simp only [List.length_cons] at h; omega)]
    exact ih (n + 1) (appendShape acc s) (by simp only [List.length_cons] at h; omega)

/-- Over the cap, the shape loop folds exactly the first
`MAX_SHAPES_PER_SLIDE - n` shapes and then appends the marker. -/
lemma processShapes_cap (shapes : List Shape) (n : Nat) (acc : String)
    (h₁ : n ≤ MAX_SHAPES_PER_SLIDE) (h₂ : MAX_SHAPES_PER_SLIDE < n + shapes.length) :
    processShapes shapes n acc =
      (shapes.take (MAX_SHAPES_PER_SLIDE - n)).foldl appendShape acc ++ shapeMarker := by
  induction shapes generalizing n acc with
  | nil => simp at h₂; omega
  | cons s rest ih =>
    rw [processShapes]
    by_cases hcap : MAX_SHAPES_PER_SLIDE < n + 1
    · rw [if_pos hcap]
      have hn : MAX_SHAPES_PER_SLIDE - n = 0 := by omega
      rw [hn, List.take_zero, List.foldl_nil]
    · rw [if_neg hcap]
      have hn : MAX_SHAPES_PER_SLIDE - n = (MAX_SHAPES_PER_SLIDE - (n + 1)) + 1 := by omega
      rw [hn, List.take_succ_cons, List.foldl_cons]
      exact ih (n + 1) (appendShape acc s) (by omega)
        (by simp only [List.length_cons] at h₂; omega)

/-- Slide texts of a concatenation split at the concatenation point. -/
lemma slideTexts_append (a b : List Slide) (n : Nat) :
    slideTexts (a ++ b) n = slideTexts a n ++ slideTexts b (n + a.length) := by
  induction a generalizing n with
  | nil => simp [slideTexts]
  | cons s rest ih =>
    simp only [List.cons_append, slideTexts, List.length_cons, List.append_eq]
    rw [ih (n + 1), show n + 1 + rest.length = n + (rest.length + 1) from by omega]

/-- The slide loop only ever extends the accumulated list of texts. -/
lemma processSlides_acc (slides : List Slide) (i n : Nat) (acc : List String) :
    ∃ t, (processSlides slides i n acc).1 = acc ++ t := by
  induction slides generalizing i n acc with
  | nil => exact ⟨[], by simp [processSlides]⟩
  | cons s rest ih =>
    rw [processSlides]
    split
    · exact ⟨[slideCapMarker], rfl⟩
    · obtain ⟨t, ht⟩ := ih (i + 1) (n + 1) (acc ++ [slideTextOf (n + 1) s])
      exact ⟨[slideTextOf (n + 1) s] ++ t, by rw [ht, List.append_assoc]⟩

/-- Below the cap, the slide loop processes every slide and appends no
marker. -/
lemma processSlides_no_cap (slides : List Slide) (i n : Nat) (acc : List String)
    (h : i + slides.length ≤ MAX_SLIDES) :
    processSlides slides i n acc = (acc ++ slideTexts slides n, n + slides.length) := by
  induction slides generalizing i n acc with
  | nil => simp [processSlides, slideTexts]
  | cons s rest ih =>
    rw [processSlides]
    rw [if_neg (by simp only [List.length_cons] at h; omega)]
    rw [ih (i + 1) (n + 1) _ (by simp only [List.length_cons] at h; omega)]
    simp [slideTexts, List.append_assoc]
    omega

/-- Over the cap, the slide loop processes exactly the first
`MAX_SLIDES - i` slides and then appends the single cap marker. -/
lemma processSlides_cap (slides : List Slide) (i n : Nat) (acc : List String)
    (h₁ : i ≤ MAX_SLIDES) (h₂ : MAX_SLIDES < i + slides.length) :
    processSlides slides i n acc =
      (acc ++ slideTexts (slides.take (MAX_SLIDES - i)) n ++ [slideCapMarker],
       n + (MAX_SLIDES - i)) := by
  induction slides generalizing i n acc with
  | nil => simp at h₂; omega
  | cons s rest ih =>
    rw [processSlides]
    by_cases hcap : MAX_SLIDES ≤ i
    · rw [if_pos hcap]
      have hi : MAX_SLIDES - i = 0 := by omega
      rw [hi, List.take_zero]
      simp [slideTexts]
    · rw [if_neg hcap]
      rw [ih (i + 1) (n + 1) _ (by omega) (by simp only [List.length_cons] at h₂; omega)]
      have hi : MAX_SLIDES - i = (MAX_SLIDES - (i + 1)) + 1 := by omega
      rw [hi, List.take_succ_cons]
      simp [slideTexts, List.append_assoc]
      omega

/-- Joining a non-empty list of lines starts with the first line. -/
lemma joinLines_cons_data (x : String) (rest : List String) :
    ∃ t, (joinLines (x :: rest)).data = x.data ++ t := by
  cases rest with
  | nil => exact ⟨[], by simp [joinLines]⟩
  | cons y r =>
    exact ⟨"\n".data ++ (joinLines (y :: r)).data,
      by rw [joinLines, data_append, data_append, List.append_assoc]⟩

/-! ## Claim theorems -/

/-- C1: on a document with 250 sections, `safe_text_extraction` returns
`sectionCount = 200`, the output text is the join of the texts of exactly
the first 200 sections followed by one synthetic truncation marker (so the
marker appears once, after the 200th section's content, sections beyond the
cap contribute nothing, and the marker is not counted in the section
count). -/
theorem extract_hits_slide_cap (doc : List Slide) (h : doc.length = 250) :
    safe_text_extraction (OpenOutcome.ok doc) =
      (joinLines (slideTexts (doc.take MAX_SLIDES) 0 ++ [slideCapMarker]),
       MAX_SLIDES, none) := by
  have hcap := processSlides_cap doc 0 0 [] (Nat.zero_le _)
    (by rw [Nat.zero_add, h]; decide)
  simp only [safe_text_extraction, hcap, Nat.zero_add, Nat.sub_zero, List.nil_append]

/-- Witness for C1 at a concrete 250-section document. -/
theorem extract_hits_slide_cap_holds :
    safe_text_extraction (OpenOutcome.ok (List.replicate 250 (Slide.mk []))) =
      (joinLines (slideTexts ((List.replicate 250 (Slide.mk [])).take MAX_SLIDES) 0 ++
         [slideCapMarker]), MAX_SLIDES, none) :=
  extract_hits_slide_cap (List.replicate 250 (Slide.mk []))
    (by rw [List.length_replicate])

/-- C2: on a document whose section `s` has 150 elements (and which stays
below the slide cap), extraction succeeds, every section including the ones
after `s` is processed, and the text of `s` is the fold over only its first
100 elements followed by the "too many shapes" marker — so that section's
text ends with the marker and content past the cap is skipped. -/
theorem extract_shape_cap_section (pre post : List Slide) (s : Slide)
    (hs : s.shapes.length = 150)
    (hlen : pre.length + 1 + post.length ≤ MAX_SLIDES) :
    safe_text_extraction (OpenOutcome.ok (pre ++ s :: post)) =
      (joinLines (slideTexts pre 0 ++
         slideTextOf (pre.length + 1) s :: slideTexts post (pre.length + 1)),
       pre.length + 1 + post.length, none) ∧
    slideTextOf (pre.length + 1) s =
      (s.shapes.take MAX_SHAPES_PER_SLIDE).foldl appendShape
        (slideHeader (pre.length + 1)) ++ shapeMarker := by
  constructor
  · have hlen' : 0 + (pre ++ s :: post).length ≤ MAX_SLIDES := by
      simp only [List.length_append, List.length_cons, Nat.zero_add]
      omega
    have hnc := processSlides_no_cap (pre ++ s :: post) 0 0 [] hlen'
    simp only [safe_text_extraction, hnc, List.nil_append, Nat.zero_add,
      slideTexts_append, slideTexts, List.length_append, List.length_cons,
      Prod.mk.injEq, true_and, and_true]
    omega
  · rw [slideTextOf]
    exact processShapes_cap s.shapes 0 (slideHeader (pre.length + 1))
      (by simp [MAX_SHAPES_PER_SLIDE]) (by simp [hs, MAX_SHAPES_PER_SLIDE])

/-- Witness for C2: a concrete section with 150 text shapes followed by a
further section. -/
theorem extract_shape_cap_section_holds :
    slideTextOf 1 (Slide.mk (List.replicate 150 (Shape.mk (some "x")))) =
      ((List.replicate 150 (Shape.mk (some "x"))).take MAX_SHAPES_PER_SLIDE).foldl
        appendShape (slideHeader 1) ++ shapeMarker :=
  (extract_shape_cap_section [] [Slide.mk []]
    (Slide.mk (List.replicate 150 (Shape.mk (some "x"))))
    (by simp) (by simp [MAX_SLIDES])).2

/-- C3: the validator runs all five checks with no early exit: for every
blob, every violated check contributes its rejection reason to the returned
list, so a blob violating several checks at once receives all of their
reasons together. -/
theorem validate_reports_every_violation (b : UploadedBlob) :
    (MAX_FILE_SIZE < b.size → sizeReason ∈ validate_file_basic b) ∧
    (pyLower (splitextExt b.name) ∉ ALLOWED_EXTENSIONS →
      extReason ∈ validate_file_basic b) ∧
    (b.zip = ZipOutcome.badZip → corruptReason ∈ validate_file_basic b) ∧
    (hasDangerousChar b.name = true → charReason ∈ validate_file_basic b) ∧
    (b.size < 1000 → tooSmallReason ∈ validate_file_basic b) := by
  refine ⟨?_, ?_, ?_, ?_, ?_⟩ <;> intro h <;>
    simp [validate_file_basic, List.mem_append, mem_if_singleton,
      mem_if_singleton_neg, structuralCheck, h]

/-- C4: the validator is total on the structural check: a blob whose bytes
raise `BadZipFile` gets the "corrupted" reason, an openable archive missing
a required entry gets the package-format reason, and any other exception is
converted to the generic "unable to validate structure" reason — no case is
left unhandled. -/
theorem validate_structural_covers_exceptions (b : UploadedBlob) :
    (b.zip = ZipOutcome.badZip → corruptReason ∈ validate_file_basic b) ∧
    (∀ names, b.zip = ZipOutcome.ok names →
      ("[Content_Types].xml" ∉ names ∨ "ppt/presentation.xml" ∉ names) →
      formatReason ∈ validate_file_basic b) ∧
    (b.zip = ZipOutcome.otherError → structFailReason ∈ validate_file_basic b) := by
  refine ⟨?_, ?_, ?_⟩
  · intro h
    have hc : corruptReason ∈ structuralCheck b.zip := by
      rw [h, structuralCheck]
      exact List.mem_singleton_self _
    rw [validate_file_basic]
    simp only [List.mem_append]
    tauto
  · intro names h hmiss
    have hall : ¬ (requiredFiles.all (fun f => names.contains f) = true) := by
      simp only [requiredFiles, List.all_cons, List.all_nil, Bool.and_true,
        Bool.and_eq_true, List.elem_iff]
      rcases hmiss with hm | hm
      · exact fun hc => hm hc.1
      · exact fun hc => hm hc.2
    have hc : formatReason ∈ structuralCheck b.zip := by
      rw [h, structuralCheck, if_neg hall]
      exact List.mem_singleton_self _
    rw [validate_file_basic]
    simp only [List.mem_append]
    tauto
  · intro h
    have hc : structFailReason ∈ structuralCheck b.zip := by
      rw [h, structuralCheck]
      exact List.mem_singleton_self _
    rw [validate_file_basic]
    simp only [List.mem_append]
    tauto

/-- Witness for C4 at concrete blobs exercising all three structural
outcomes. -/
theorem validate_structural_covers_exceptions_holds :
    corruptReason ∈ validate_file_basic ⟨"deck.pptx", 2000, ZipOutcome.badZip⟩ ∧
    formatReason ∈ validate_file_basic ⟨"deck.pptx", 2000, ZipOutcome.ok []⟩ ∧
    structFailReason ∈ validate_file_basic ⟨"deck.pptx", 2000, ZipOutcome.otherError⟩ :=
  ⟨(validate_structural_covers_exceptions _).1 rfl,
   (validate_structural_covers_exceptions _).2.1 [] rfl (by simp),
   (validate_structural_covers_exceptions _).2.2 rfl⟩

/-- C5: whenever extraction reports an error, the text is empty and the
section count is zero, so an error and a positive section count never occur
together. -/
theorem extraction_error_zeroes_result (o : OpenOutcome)
    (h : (safe_text_extraction o).2.2 ≠ none) :
    (safe_text_extraction o).1 = "" ∧ (safe_text_extraction o).2.1 = 0 := by
  cases o with
  | ok slides => exact absurd rfl h
  | exn msg => exact ⟨rfl, rfl⟩

/-- Witness for C5 at a concrete failing extraction. -/
theorem extraction_error_zeroes_result_holds :
    (safe_text_extraction (OpenOutcome.exn "boom")).1 = "" ∧
    (safe_text_extraction (OpenOutcome.exn "boom")).2.1 = 0 :=
  extraction_error_zeroes_result (OpenOutcome.exn "boom")
    (by simp [safe_text_extraction])

/-- C6: the surfaced extraction error is the generic security-restriction
message exactly when the underlying message contains a path separator or
the substring "temp" case-insensitively (as the spec words it, via
`specLeakyMessage`), and otherwise it is "Error:" followed by the first at
most 100 characters of the underlying message — raw text is never surfaced
whole beyond that. -/
theorem extraction_error_sanitized (msg : String) :
    (specLeakyMessage msg = true → sanitize_error msg = genericSecurityMsg) ∧
    (specLeakyMessage msg = false →
      sanitize_error msg = "Error: " ++ pyTake msg 100 ∧
        (pyTake msg 100).length ≤ 100) := by
  have hspec : specLeakyMessage msg = leakyMessage msg := by
    rw [specLeakyMessage, leakyMessage, show pyLower "temp" = "temp" from by decide]
    cases strContains msg "/" <;> cases strContains msg "\\" <;>
      cases strContains (pyLower msg) "temp" <;> rfl
  constructor
  · intro h
    rw [sanitize_error, if_pos (hspec.symm.trans h)]
  · intro h
    rw [sanitize_error, if_neg (by rw [← hspec, h]; exact Bool.false_ne_true)]
    exact ⟨rfl, List.length_take_le 100 msg.data⟩

/-- C7: the minimum-size boundary is exact at 1000 bytes: a 999-byte blob
receives the too-small reason and a 1000-byte blob never does, whatever its
name and structural outcome. -/
theorem min_size_boundary (name : String) (z : ZipOutcome) :
    tooSmallReason ∈ validate_file_basic ⟨name, 999, z⟩ ∧
    tooSmallReason ∉ validate_file_basic ⟨name, 1000, z⟩ := by
  constructor
  · simp [validate_file_basic, List.mem_append]
  · intro hmem
    rw [validate_file_basic] at hmem
    simp only [List.mem_append, mem_if_singleton, mem_if_singleton_neg] at hmem
    rcases hmem with ((((⟨_, he⟩ | ⟨_, he⟩) | hst) | ⟨_, he⟩) | ⟨hlt, _⟩)
    · exact absurd he (by decide)
    · exact absurd he (by decide)
    · cases z with
      | ok names =>
        rw [structuralCheck] at hst
        rcases mem_if_singleton_neg.mp hst with ⟨_, he⟩
        exact absurd he (by decide)
      | badZip =>
        rw [structuralCheck, List.mem_singleton] at hst
        exact absurd hst (by decide)
      | otherError =>
        rw [structuralCheck, List.mem_singleton] at hst
        exact absurd hst (by decide)
    · exact absurd he (by decide)
    · exact absurd hlt (by decide)

/-- C8: the printable-character filter of extraction step 5 is idempotent:
re-filtering already filtered text changes nothing. -/
theorem sanitize_idempotent (s : String) :
    sanitizeText (sanitizeText s) = sanitizeText s := by
  unfold sanitizeText
  congr 1
  induction s.data with
  | nil => rfl
  | cons a t ih =>
    cases h : keepChar a <;> simp [List.filter_cons, h, ih]

/-- C9: the summary attachment is offered exactly when the extracted text
has more than 1000 characters, and then carries the first 500 and last 300
characters joined by the truncation notice. -/
theorem summary_offered_iff_long (t : String) :
    ((summary_attachment t).isSome ↔ 1000 < t.length) ∧
    (1000 < t.length →
      summary_attachment t =
        some (pyTake t 500 ++ summaryNotice ++ pyTakeRight t 300)) := by
  constructor
  · rw [summary_attachment]
    split <;> simp_all
  · intro h
    rw [summary_attachment, if_pos h]

/-- C10: a successful extraction with a positive section count never has
empty text, because every processed section contributes its slide header
line; empty text therefore only arises from a document with zero
sections. -/
theorem extracted_text_nonempty (doc : List Slide)
    (h : 0 < (safe_text_extraction (OpenOutcome.ok doc)).2.1) :
    (safe_text_extraction (OpenOutcome.ok doc)).1 ≠ "" := by
  cases doc with
  | nil => simp [safe_text_extraction, processSlides] at h
  | cons s rest =>
    intro hempty
    have hstep : processSlides (s :: rest) 0 0 [] =
        processSlides rest 1 1 [slideTextOf 1 s] := by
      rw [processSlides, if_neg (by simp [MAX_SLIDES])]
      rfl
    obtain ⟨t, ht⟩ := processSlides_acc rest 1 1 [slideTextOf 1 s]
    have htext : (safe_text_extraction (OpenOutcome.ok (s :: rest))).1 =
        joinLines (slideTextOf 1 s :: t) := by
      simp only [safe_text_extraction, hstep, ht, List.singleton_append]
    obtain ⟨u, hu⟩ := joinLines_cons_data (slideTextOf 1 s) t
    obtain ⟨v, hv⟩ := processShapes_data s.shapes 0 (slideHeader 1)
    have hdata : (safe_text_extraction (OpenOutcome.ok (s :: rest))).1.data =
        (slideHeader 1).data ++ v ++ (u : List Char) := by
      rw [htext, hu, slideTextOf, hv]
    rw [hempty] at hdata
    have : ((slideHeader 1).data ++ v ++ u).length = 0 := by rw [← hdata]; rfl
    simp [slideHeader, data_append] at this

/-- Witness for C10 at a concrete one-section document with no shapes. -/
theorem extracted_text_nonempty_holds :
    (safe_text_extraction (OpenOutcome.ok [Slide.mk []])).1 ≠ "" :=
  extracted_text_nonempty [Slide.mk []] (by decide)

end Pptx
